import Mathlib

/-!
Verification development for the `stepfg` STEP-file generator
(`src/stepfg.py`).

The program turns a list of planar polygons into an extruded 3D solid
encoded as numbered STEP records.  This file gives a shallow embedding of
its core:

* the entity registry (`work_array` / `current_index` / `new_item`,
  operating on record text lines, with textual suffix matching for
  deduplication);
* the list helpers (`rotate` with Python slice semantics);
* the winding normalization (`convert_to_clockwise`);
* the input validation pipeline (`generate_assembly`, over a model
  `PyVal` of the dynamically typed input values);
* the geometric face construction (`normalize`, `cross_product`,
  `advanced_face_0`, `zface`, `xyface`, `af2d3d`, `af_list_2_part`)
  over the reals.

Python strings are modelled as `List Char`; Python exceptions and
`sys.exit` aborts as `Except Err`.  Numbers handled by the registry and
validation layers are modelled as rationals (the program's arithmetic
there is exact on such inputs up to floating point); the face layer,
which divides by `math.sqrt`, is modelled over the reals.
-/

namespace StepFG

/-- Failure modes of the program: each `sys.exit` call site and each
Python exception that the modelled code can raise. -/
inductive Err where
  /-- `to_coord` / `normalize`: "Coordinates not 3D." -/
  | notCoord3D
  /-- Python `ZeroDivisionError` (division by a zero magnitude). -/
  | zeroDivision
  /-- Python `IndexError` (sequence index out of range). -/
  | indexError
  /-- Python `TypeError` (e.g. `len()` of a number). -/
  | typeError
  /-- `convert_to_clockwise`: "Polygon is neither clockwise nor counter-clockwise." -/
  | degeneratePolygon
  /-- `generate_assembly`: NaN supplied for proportionality coefficient. -/
  | coeffNaN
  /-- `generate_assembly`: zero supplied as the proportionality coefficient. -/
  | coeffZero
  /-- `generate_assembly`: z-coordinate interval expected, scalar supplied. -/
  | depthScalar
  /-- `generate_assembly`: z-coordinate interval expected, empty list supplied. -/
  | depthEmpty
  /-- `generate_assembly`: NaN found in the z-coordinate interval. -/
  | depthNaN
  /-- `generate_assembly`: z2 must be different from z1. -/
  | depthEqual
  /-- `generate_assembly`: list of vertices lists expected, scalar supplied. -/
  | partsScalar
  /-- `generate_assembly`: empty list of vertices lists. -/
  | partsEmpty
  /-- `generate_assembly`: empty list of vertices. -/
  | polyEmpty
  /-- `generate_assembly`: list of vertices expected, scalar supplied. -/
  | polyScalar
  /-- `generate_assembly`: empty list of vertex coordinates. -/
  | vertexEmpty
  /-- `generate_assembly`: list of vertex coordinates expected, scalar supplied. -/
  | vertexScalar
  /-- `generate_assembly`: number of vertex coordinates should be 2 or 3. -/
  | vertexLen
  /-- `generate_assembly`: NaN is supplied for a vertex coordinate. -/
  | coordNaN
  /-- module level: "Input data is not a list." -/
  | topNotList
  /-- module level: "The top-level length of the input data list is not 3." -/
  | topLenNot3
  /-- unreachable shape mismatch in the typed extraction that reifies the
  dynamic-typing invariant established by validation (no Python counterpart). -/
  | shapeInvariant
  deriving DecidableEq

/-- Python strings are sequences of characters. -/
abbrev Str := List Char

/-- One entry of `work_array`.  The program stores the full line
`'#' + str(index) + '=' + payload` as a single string; the model keeps the
assigned index and the payload, and rebuilds the full line with
`fullLine` wherever the program uses the line's text. -/
structure Rec where
  idx : Nat
  payload : Str
  deriving DecidableEq

/-- The stored text of a record: `'#' + str(current_index) + '=' + string_in`
from `new_item`. -/
def fullLine (r : Rec) : Str :=
  '#' :: (Nat.repr r.idx).toList ++ '=' :: r.payload

/-- The registry's mutable state: the global `work_array` and
`current_index` of the program. -/
structure RegState where
  work : List Rec
  cur : Nat
  deriving DecidableEq

/-- `item_exists_q(string_in)`: some stored line ends with `string_in`
(Python `item.endswith(string_in)`). -/
def item_exists_q (s : Str) (st : RegState) : Bool :=
  st.work.any fun item => s.isSuffixOf (fullLine item)

/-- `existing_item_ln(string_in)`: the id of the first stored line ending
with `string_in`.  The program re-parses the id from the line's text with
`line_index` (regex `#(.+?)=`); every stored line was written by
`new_item` as `'#' + str(idx) + '=' + payload`, so the parse recovers
exactly the `idx` field kept by the model.  The `0` default corresponds
to the `False` return that `new_item` never reaches (it calls this only
after `item_exists_q` succeeded). -/
def existing_item_ln (s : Str) (st : RegState) : Nat :=
  match st.work.find? (fun item => s.isSuffixOf (fullLine item)) with
  | some r => r.idx
  | none => 0

/-- `new_item(string_in)`: return the id of an existing matching record,
or append `'#' + str(current_index) + '=' + string_in` and return (then
increment) `current_index`. -/
def new_item (s : Str) (st : RegState) : Nat × RegState :=
  if item_exists_q s st then
    (existing_item_ln s st, st)
  else
    (st.cur, ⟨st.work ++ [⟨st.cur, s⟩], st.cur + 1⟩)

/-- The registry state at the start of a generation run:
`work_array = []` and `current_index = highest_index + 1`, where
`highest_index` is the highest id already present in the document
scaffold (`49` in the program's fixed scaffold). -/
def initial_state (highestIndex : Nat) : RegState :=
  ⟨[], highestIndex + 1⟩

/-- Python slice `l[a:]` for a possibly negative `a`. -/
def pysliceFrom (l : List α) (a : Int) : List α :=
  if 0 ≤ a then l.drop a.toNat else l.drop (l.length - (-a).toNat)

/-- Python slice `l[:b]` for a possibly negative `b`. -/
def pysliceTo (l : List α) (b : Int) : List α :=
  if 0 ≤ b then l.take b.toNat else l.take (l.length - (-b).toNat)

/-- `rotate(list_in, x) = list_in[-x:] + list_in[:-x]`. -/
def rotate (l : List α) (x : Int) : List α :=
  pysliceFrom l (-x) ++ pysliceTo l (-x)

/-- Sanity: `rotate` by 1 brings the last element to the front. -/
example : rotate [1, 2, 3, 4] 1 = [4, 1, 2, 3] := by decide

/-- Sanity: `rotate` by -1 brings the first element to the back. -/
example : rotate [1, 2, 3, 4] (-1) = [2, 3, 4, 1] := by decide

theorem rotate_length (l : List α) (x : Int) : (rotate l x).length = l.length := by
  unfold rotate pysliceFrom pysliceTo
  split
  all_goals simp
  all_goals omega

theorem rotate_one_eq (l : List α) :
    rotate l 1 = l.drop (l.length - 1) ++ l.take (l.length - 1) := by
  unfold rotate pysliceFrom pysliceTo
  norm_num

theorem rotate_neg_one_eq (l : List α) :
    rotate l (-1) = l.drop 1 ++ l.take 1 := by
  unfold rotate pysliceFrom pysliceTo
  norm_num

/-! ### Registry lemmas -/

/-- A record's own payload is a suffix of its stored line. -/
theorem isSuffixOf_fullLine_self (r : Rec) : r.payload.isSuffixOf (fullLine r) = true := by
  rw [List.isSuffixOf_iff_suffix]
  exact ⟨'#' :: (Nat.repr r.idx).toList ++ ['='], by simp [fullLine]⟩

/-- `new_item` either returns the state unchanged (deduplication) or appends
exactly one record carrying the current counter value. -/
theorem new_item_cases (s : Str) (st : RegState) :
    (item_exists_q s st = true ∧ new_item s st = (existing_item_ln s st, st)) ∨
      (item_exists_q s st = false ∧
        new_item s st = (st.cur, ⟨st.work ++ [⟨st.cur, s⟩], st.cur + 1⟩)) := by
  by_cases h : item_exists_q s st = true
  · exact Or.inl ⟨h, by simp [new_item, h]⟩
  · exact Or.inr ⟨by simpa using h, by simp [new_item, h]⟩

/-- Interning the same text right after interning it returns the same id and
leaves the state unchanged. -/
theorem new_item_idem (s : Str) (st : RegState) (i : Nat) (st' : RegState)
    (h : new_item s st = (i, st')) : new_item s st' = (i, st') := by
  rcases new_item_cases s st with ⟨he, hv⟩ | ⟨he, hv⟩
  · rw [hv] at h
    injection h with h1 h2
    subst h1; subst h2
    simp [new_item, he]
  · rw [hv] at h
    injection h with h1 h2
    subst h1; subst h2
    have hfind : (RegState.mk (st.work ++ [⟨st.cur, s⟩]) (st.cur + 1)).work.find?
        (fun item => s.isSuffixOf (fullLine item)) = some ⟨st.cur, s⟩ := by
      have hnone : st.work.find? (fun item => s.isSuffixOf (fullLine item)) = none := by
        rw [List.find?_eq_none]
        intro r hr hsuf
        have : item_exists_q s st = true := by
          simp only [item_exists_q, List.any_eq_true]
          exact ⟨r, hr, hsuf⟩
        simp [this] at he
      simp only [List.find?_append, hnone, Option.none_or]
      simp only [List.find?_cons, isSuffixOf_fullLine_self ⟨st.cur, s⟩]
    have hex : item_exists_q s ⟨st.work ++ [⟨st.cur, s⟩], st.cur + 1⟩ = true := by
      simp only [item_exists_q, List.any_eq_true]
      exact ⟨⟨st.cur, s⟩, by simp, isSuffixOf_fullLine_self ⟨st.cur, s⟩⟩
    simp [new_item, hex, existing_item_ln, hfind]

/-- A deduplicating `new_item` still returns the same id after the work
array has grown by appended records (appends never change the first match). -/
theorem new_item_stable (s : Str) (st : RegState) (i : Nat)
    (h : new_item s st = (i, st)) (hex : item_exists_q s st = true)
    (st₂ : RegState) (ext : List Rec) (hw : st₂.work = st.work ++ ext) :
    new_item s st₂ = (i, st₂) := by
  obtain ⟨r, hfind⟩ : ∃ r, st.work.find? (fun item => s.isSuffixOf (fullLine item)) = some r := by
    simp only [item_exists_q, List.any_eq_true] at hex
    obtain ⟨r, hr, hsuf⟩ := hex
    exact Option.isSome_iff_exists.mp (List.find?_isSome.mpr ⟨r, hr, hsuf⟩)
  have hfind₂ : st₂.work.find? (fun item => s.isSuffixOf (fullLine item)) = some r := by
    rw [hw, List.find?_append, hfind]; rfl
  have hp := List.find?_some hfind₂
  have hex₂ : item_exists_q s st₂ = true := by
    simp only [item_exists_q, List.any_eq_true]
    exact ⟨r, List.mem_of_find?_eq_some hfind₂, hp⟩
  have hi : i = r.idx := by
    have := h
    simp only [new_item, hex, if_true, existing_item_ln, hfind] at this
    exact (congrArg Prod.fst this).symm
  simp [new_item, hex₂, existing_item_ln, hfind₂, hi]

/-- Folding `new_item` over a list of payload texts, collecting the returned ids. -/
def runIntern : List Str → RegState → List Nat × RegState
  | [], st => ([], st)
  | s :: rest, st =>
    let (i, st') := new_item s st
    let (is, st'') := runIntern rest st'
    (i :: is, st'')

/-- Every run of `new_item` calls appends a block of records whose ids are the
consecutive counter values starting at the initial counter, and leaves the
counter one past the last id created. -/
theorem runIntern_created (qs : List Str) (st : RegState) :
    ∃ ext : List Rec,
      (runIntern qs st).2.work = st.work ++ ext ∧
      ext.map Rec.idx = List.range' st.cur ext.length ∧
      (runIntern qs st).2.cur = st.cur + ext.length := by
  induction qs generalizing st with
  | nil => exact ⟨[], by simp [runIntern]⟩
  | cons q rest ih =>
    rcases new_item_cases q st with ⟨_, hv⟩ | ⟨_, hv⟩
    · obtain ⟨ext, h1, h2, h3⟩ := ih st
      exact ⟨ext, by simp [runIntern, hv, h1], h2, by simp [runIntern, hv, h3]⟩
    · obtain ⟨ext, h1, h2, h3⟩ := ih ⟨st.work ++ [⟨st.cur, q⟩], st.cur + 1⟩
      refine ⟨⟨st.cur, q⟩ :: ext, ?_, ?_, ?_⟩
      · simp only [runIntern, hv]
        simpa using h1
      · simpa [List.range'_succ] using h2
      · simp only [runIntern, hv]
        simpa [Nat.add_assoc, Nat.add_comm 1] using h3

/-- If `new_item` returns the state unchanged, it took the deduplication
branch. -/
theorem new_item_fixed (s : Str) (st : RegState) (i : Nat)
    (h : new_item s st = (i, st)) : item_exists_q s st = true := by
  rcases new_item_cases s st with ⟨he, _⟩ | ⟨he, hv⟩
  · exact he
  · rw [hv] at h
    injection h with h1 h2
    have := congrArg (fun st : RegState => st.work.length) h2
    simp at this

/-! ### Monad-unfolding helpers for `Except` -/

@[simp] theorem ok_bind (a : α) (f : α → Except Err β) :
    (Except.ok a >>= f) = f a := rfl

@[simp] theorem error_bind (e : Err) (f : α → Except Err β) :
    (Except.error e >>= f) = Except.error e := rfl

@[simp] theorem pure_eq_ok (a : α) : (pure a : Except Err α) = Except.ok a := rfl

/-! ### Record builders over the registry (rational coordinates)

The program renders numbers into record text with Python's `str`; the model
renders with `toString` on `ℚ`.  The registry semantics (text equality and
suffix matching) depends only on the rendering being deterministic. -/

instance {ε α : Type} [DecidableEq ε] [DecidableEq α] : DecidableEq (Except ε α) := fun
  | .ok a, .ok b => decidable_of_iff (a = b) (by simp)
  | .ok _, .error _ => .isFalse (by simp)
  | .error _, .ok _ => .isFalse (by simp)
  | .error e, .error f => decidable_of_iff (e = f) (by simp)

/-- `new_item` on a store whose first matching line is the record `r`
returns `r`'s id and leaves the state unchanged. -/
theorem new_item_dedup_of_find (s : Str) (st : RegState) (r : Rec)
    (hfind : st.work.find? (fun item => s.isSuffixOf (fullLine item)) = some r) :
    new_item s st = (r.idx, st) := by
  have hp := List.find?_some hfind
  have hex : item_exists_q s st = true := by
    simp only [item_exists_q, List.any_eq_true]
    exact ⟨r, List.mem_of_find?_eq_some hfind, hp⟩
  simp [new_item, hex, existing_item_ln, hfind]

/-- `str(x)` for a coordinate value. -/
def numStr (q : ℚ) : Str := (toString q).toList

/-- `to_coord(clist)`: error unless exactly three coordinates, else the
comma-joined rendering. -/
def to_coord : List ℚ → Except Err Str
  | [a, b, c] => .ok (numStr a ++ ',' :: numStr b ++ ',' :: numStr c)
  | _ => .error .notCoord3D

/-- Payload text `"CARTESIAN_POINT('Vertex',(" + to_coord(coord_in) + ")) ;\n"`. -/
def cartVertexStr (t : Str) : Str :=
  ("CARTESIAN_POINT('Vertex',(").toList ++ t ++ (")) ;\n").toList

/-- Payload text `"VERTEX_POINT('',#" + str(coord_ln) + ") ;\n"`. -/
def vertexPointStr (coordLn : Nat) : Str :=
  ("VERTEX_POINT('',#").toList ++ (Nat.repr coordLn).toList ++ (") ;\n").toList

/-- `vertex(coord_in)`: intern a `CARTESIAN_POINT` record for the coordinates,
then a `VERTEX_POINT` record referencing it. -/
def vertex (coord : List ℚ) (st : RegState) : Except Err (Nat × RegState) := do
  let t ← to_coord coord
  let r1 := new_item (cartVertexStr t) st
  pure (new_item (vertexPointStr r1.1) r1.2)

/-- The registry state after building one vertex at the origin from the
scaffold-seeded initial state: the `CARTESIAN_POINT` takes id 50, the
`VERTEX_POINT` id 51. -/
def vtxSt : RegState :=
  ⟨[⟨50, ("CARTESIAN_POINT('Vertex',(0,0,0)) ;\n").toList⟩,
    ⟨51, ("VERTEX_POINT('',#50) ;\n").toList⟩], 52⟩

/-! ### Claims C3, C5, C10 -/

/-- Claim C3 (counterexample): building a vertex at the same coordinates
twice within one run — as happens when two polygons share a coordinate —
returns the SAME `VERTEX_POINT` id (51) both times, with the registry state
unchanged by the second build.  The claim asserts the two ids are distinct. -/
theorem c3_counterexample :
    vertex [0, 0, 0] (initial_state 49) = .ok (51, vtxSt) ∧
      vertex [0, 0, 0] vtxSt = .ok (51, vtxSt) := by
  constructor <;> decide

/-- Claim C3 (amended): two vertices at identical coordinates — whether in
the same or in different polygons — do NOT allocate distinct vertex record
ids: the `VERTEX_POINT` payload text produced for equal coordinates is
identical, so the registry's text deduplication returns the first build's id
and leaves the state unchanged, just as the identical `CARTESIAN_POINT`
texts collapse to a single id.  This holds however many records the run has
appended between the two builds (the registry only ever grows by appends):
the second build may happen on any state `st₂` extending the first build's
result `st'` by further appended records. -/
theorem c3_amended (c : List ℚ) (st : RegState) (i : Nat) (st' : RegState)
    (h : vertex c st = .ok (i, st'))
    (st₂ : RegState) (ext : List Rec) (hw : st₂.work = st'.work ++ ext) :
    vertex c st₂ = .ok (i, st₂) := by
  unfold vertex at h ⊢
  cases ht : to_coord c with
  | error e => rw [ht] at h; simp at h
  | ok t =>
    rw [ht] at h
    simp only [ok_bind, pure_eq_ok, Except.ok.injEq] at h ⊢
    generalize hg : new_item (cartVertexStr t) st = r1 at h
    obtain ⟨p, st1⟩ := r1
    simp only at h
    have h2 : new_item (cartVertexStr t) st1 = (p, st1) := new_item_idem _ _ _ _ hg
    have hex1 : item_exists_q (cartVertexStr t) st1 = true := new_item_fixed _ _ _ h2
    have hvv : new_item (vertexPointStr p) st1 = (i, st') := h
    obtain ⟨ext0, hwork0⟩ : ∃ ext0, st'.work = st1.work ++ ext0 := by
      rcases new_item_cases (vertexPointStr p) st1 with ⟨_, hv⟩ | ⟨_, hv⟩
      · rw [hv] at hvv
        injection hvv with _ h2'
        exact ⟨[], by rw [← h2']; simp⟩
      · rw [hv] at hvv
        injection hvv with _ h2'
        exact ⟨[⟨st1.cur, vertexPointStr p⟩], by rw [← h2']⟩
    have h3 : new_item (cartVertexStr t) st' = (p, st') :=
      new_item_stable _ _ _ h2 hex1 st' ext0 hwork0
    have h4 : new_item (cartVertexStr t) st₂ = (p, st₂) :=
      new_item_stable _ _ _ h3 (new_item_fixed _ _ _ h3) st₂ ext hw
    have h5 : new_item (vertexPointStr p) st' = (i, st') := new_item_idem _ _ _ _ hvv
    have h6 : new_item (vertexPointStr p) st₂ = (i, st₂) :=
      new_item_stable _ _ _ h5 (new_item_fixed _ _ _ h5) st₂ ext hw
    rw [h4]
    exact h6

/-- The registry state after the first vertex build and one intervening
unrelated record (as happens between two polygons' builds). -/
def vtxStExt : RegState :=
  ⟨vtxSt.work ++ [⟨52, ("LINE('Line',#40,#41) ;\n").toList⟩], 53⟩

/-- Witness for `c3_amended`: rebuilding the origin vertex after an
intervening record still returns id 51 and leaves the state unchanged. -/
theorem c3_amended_witness : vertex [0, 0, 0] vtxStExt = .ok (51, vtxStExt) :=
  c3_amended [0, 0, 0] (initial_state 49) 51 vtxSt (by decide) vtxStExt
    [⟨52, ("LINE('Line',#40,#41) ;\n").toList⟩] (by decide)

/-- Claim C5: starting from the run's initial registry state (empty work
array, counter at `scaffoldMaxId + 1`), the records created by any sequence
of `new_item` calls carry exactly the consecutive ids
`scaffoldMaxId + 1, scaffoldMaxId + 2, …` in order (strictly increasing and
contiguous), and the final counter sits one past the last created id; and
interning a payload matching an existing record returns that record's
previously assigned id with the state — including the counter — unchanged. -/
theorem c5_id_allocation :
    (∀ (scaffoldMaxId : Nat) (qs : List Str),
      ∃ ext : List Rec,
        (runIntern qs (initial_state scaffoldMaxId)).2.work = ext ∧
        ext.map Rec.idx = List.range' (scaffoldMaxId + 1) ext.length ∧
        (runIntern qs (initial_state scaffoldMaxId)).2.cur =
          scaffoldMaxId + 1 + ext.length) ∧
    (∀ (s : Str) (st : RegState) (r : Rec),
      st.work.find? (fun item => s.isSuffixOf (fullLine item)) = some r →
        new_item s st = (r.idx, st)) := by
  constructor
  · intro hi qs
    obtain ⟨ext, h1, h2, h3⟩ := runIntern_created qs (initial_state hi)
    exact ⟨ext, by simpa [initial_state] using h1, h2,
      by simpa [initial_state] using h3⟩
  · intro s st r hfind
    exact new_item_dedup_of_find s st r hfind

/-- Witness for `c5_id_allocation`: re-interning the payload of record 50
returns 50 and leaves the state (and counter 51) unchanged. -/
theorem c5_witness :
    new_item (("X(1.) ;\n").toList) ⟨[⟨50, ("X(1.) ;\n").toList⟩], 51⟩ =
      (50, ⟨[⟨50, ("X(1.) ;\n").toList⟩], 51⟩) :=
  c5_id_allocation.2 _ _ ⟨50, ("X(1.) ;\n").toList⟩ (by decide)

/-- Claim C10: the registry treats a stored record as a duplicate of a
queried text exactly when the stored full line `#<id>=<payload>` ends with
the queried text; with several matches the earliest stored match wins; and
suffix matching is strictly weaker than payload equality (a concrete query
matches a record whose payload differs from it). -/
theorem c10_suffix_dedup :
    (∀ (s : Str) (st : RegState),
      item_exists_q s st = true ↔ ∃ r ∈ st.work, s.isSuffixOf (fullLine r) = true) ∧
    (∀ (s : Str) (w₁ w₂ : List Rec) (r : Rec) (cur : Nat),
      (∀ r' ∈ w₁, s.isSuffixOf (fullLine r') = false) →
      s.isSuffixOf (fullLine r) = true →
      new_item s ⟨w₁ ++ r :: w₂, cur⟩ = (r.idx, ⟨w₁ ++ r :: w₂, cur⟩)) ∧
    (new_item (("B(1.) ;\n").toList) ⟨[⟨50, ("AB(1.) ;\n").toList⟩], 51⟩ =
        (50, ⟨[⟨50, ("AB(1.) ;\n").toList⟩], 51⟩) ∧
      (("B(1.) ;\n").toList : Str) ≠ ("AB(1.) ;\n").toList) := by
  refine ⟨?_, ?_, by decide, by decide⟩
  · intro s st
    simp [item_exists_q, List.any_eq_true]
  · intro s w₁ w₂ r cur hnone hr
    refine new_item_dedup_of_find s _ r ?_
    have h₁ : w₁.find? (fun item => s.isSuffixOf (fullLine item)) = none := by
      rw [List.find?_eq_none]
      intro x hx
      simp [hnone x hx]
    simp [List.find?_append, h₁, hr]

/-- Witness for `c10_suffix_dedup`: with records 50 and 51 both matching the
query, the earliest (id 50) is returned. -/
theorem c10_witness :
    new_item (("X(1.) ;\n").toList)
        ⟨[⟨49, ("Y(2.) ;\n").toList⟩] ++ ⟨50, ("X(1.) ;\n").toList⟩ ::
          [⟨51, ("X(1.) ;\n").toList⟩], 52⟩ =
      (50, ⟨[⟨49, ("Y(2.) ;\n").toList⟩] ++ ⟨50, ("X(1.) ;\n").toList⟩ ::
          [⟨51, ("X(1.) ;\n").toList⟩], 52⟩) :=
  c10_suffix_dedup.2.1 _ _ _ ⟨50, ("X(1.) ;\n").toList⟩ _ (by decide) (by decide)

/-! ### Winding normalization (`convert_to_clockwise`)

After validation and `convert_3d`, every vertex is exactly three numbers;
a vertex is modelled as a triple.  `convert_to_clockwise` reads only the
first two components. -/

/-- A vertex as it reaches `convert_to_clockwise`: `[x, y, z]`. -/
abbrev Vtx := ℚ × ℚ × ℚ

/-- The code's summand `(x2[0] - x1[0]) * (x2[1] + x1[1])`, where `x1` ranges
over `part_list` and `x2` over `rotate(part_list, 1)`. -/
def polTerm (x1 x2 : Vtx) : ℚ := (x2.1 - x1.1) * (x2.2.1 + x1.2.1)

/-- `pol_sum` of `convert_to_clockwise`: the sum of `polTerm` over
`zip(part_list, rotate(part_list, 1))`, i.e. each vertex paired with its
cyclic predecessor. -/
def pol_sum (l : List Vtx) : ℚ := (List.zipWith polTerm l (rotate l 1)).sum

/-- `convert_to_clockwise(part_list)`: error on zero sum, reversed order on
positive sum (`reversed(part_list)`, the reversed sequence), unchanged on
negative sum. -/
def convert_to_clockwise (l : List Vtx) : Except Err (List Vtx) :=
  if pol_sum l = 0 then .error .degeneratePolygon
  else if pol_sum l > 0 then .ok l.reverse
  else .ok l

/-- From the spec's words (claim C2): the shoelace-style sum
`Σ (x_{i+1} − x_i) * (y_{i+1} + y_i)` over the cyclic sequence of
consecutive vertex pairs — each vertex paired with its cyclic successor. -/
def specShoelaceSum (l : List Vtx) : ℚ :=
  (List.zipWith polTerm l (rotate l (-1))).sum

/-- The glossary's shoelace sum `Σ (x_i * y_{i+1} − x_{i+1} * y_i)` over the
cyclic sequence: twice the polygon's signed area (positive for
counter-clockwise, negative for clockwise, in the usual y-up convention). -/
def shoelaceSum (l : List Vtx) : ℚ :=
  (List.zipWith (fun a b => a.1 * b.2.1 - b.1 * a.2.1) l (rotate l (-1))).sum

/-- Sum of `f` over consecutive pairs of a path. -/
def chainAux (f : α → α → ℚ) : List α → ℚ
  | a :: b :: rest => f a b + chainAux f (b :: rest)
  | _ => 0

theorem chainAux_cons_head (f : α → α → ℚ) (y : α) (l : List α) :
    chainAux f (y :: l) = ((l.head?).map (f y)).getD 0 + chainAux f l := by
  cases l <;> simp [chainAux]

theorem chainAux_concat (f : α → α → ℚ) (l : List α) (x : α) :
    chainAux f (l ++ [x]) = chainAux f l + ((l.getLast?).map (fun a => f a x)).getD 0 := by
  induction l with
  | nil => simp [chainAux]
  | cons a l ih =>
    cases l with
    | nil => simp [chainAux]
    | cons b t =>
      simp only [List.cons_append, chainAux, List.getLast?_cons_cons,
        List.append_eq] at ih ⊢
      rw [ih]
      ring

theorem chainAux_neg_of (f g : α → α → ℚ) (h : ∀ a b, f a b = -g a b) (l : List α) :
    chainAux f l = -chainAux g l := by
  induction l with
  | nil => simp [chainAux]
  | cons a l ih =>
    cases l with
    | nil => simp [chainAux]
    | cons b t =>
      simp only [chainAux] at ih ⊢
      rw [h, ih]
      ring

theorem chainAux_add (f g : α → α → ℚ) (l : List α) :
    chainAux (fun a b => f a b + g a b) l = chainAux f l + chainAux g l := by
  induction l with
  | nil => simp [chainAux]
  | cons a l ih =>
    cases l with
    | nil => simp [chainAux]
    | cons b t =>
      simp only [chainAux] at ih ⊢
      rw [ih]
      ring

theorem chainAux_tele (gg : α → ℚ) (l : List α) :
    chainAux (fun a b => gg b - gg a) l =
      ((l.getLast?).map gg).getD 0 - ((l.head?).map gg).getD 0 := by
  induction l with
  | nil => simp [chainAux]
  | cons a l ih =>
    cases l with
    | nil => simp [chainAux]
    | cons b t =>
      simp only [chainAux] at ih ⊢
      rw [ih, List.getLast?_cons_cons]
      simp
      try ring

theorem chainAux_reverse (f : α → α → ℚ) (l : List α) :
    chainAux f l.reverse = chainAux (fun a b => f b a) l := by
  induction l with
  | nil => simp [chainAux]
  | cons a l ih =>
    rw [List.reverse_cons, chainAux_concat, ih, List.getLast?_reverse,
      chainAux_cons_head]
    ring

/-- Sum of `f` over each element paired with its predecessor (the list
zipped against `p :: dropLast`). -/
theorem zip_pred_sum (f : α → α → ℚ) (l : List α) (p : α) :
    (List.zipWith f l (p :: l.dropLast)).sum = chainAux (fun a b => f b a) (p :: l) := by
  induction l generalizing p with
  | nil => simp [chainAux]
  | cons a l ih =>
    cases l with
    | nil => simp [chainAux]
    | cons b t =>
      calc (List.zipWith f (a :: b :: t) (p :: (a :: b :: t).dropLast)).sum
          = f a p + (List.zipWith f (b :: t) (a :: (b :: t).dropLast)).sum := by
            simp [List.dropLast_cons₂]
        _ = f a p + chainAux (fun a b => f b a) (a :: b :: t) := by rw [ih a]
        _ = chainAux (fun a b => f b a) (p :: a :: b :: t) := by simp [chainAux]

/-- Sum of `f` over each element paired with its successor (the list zipped
against `tail ++ [x]`). -/
theorem zip_succ_sum (f : α → α → ℚ) (l : List α) (x : α) :
    (List.zipWith f l (l.tail ++ [x])).sum = chainAux f (l ++ [x]) := by
  induction l with
  | nil => simp [chainAux]
  | cons a l ih =>
    cases l with
    | nil => simp [chainAux]
    | cons b t =>
      calc (List.zipWith f (a :: b :: t) ((a :: b :: t).tail ++ [x])).sum
          = f a b + (List.zipWith f (b :: t) ((b :: t).tail ++ [x])).sum := by
            simp
        _ = f a b + chainAux f ((b :: t) ++ [x]) := by rw [ih]
        _ = chainAux f ((a :: b :: t) ++ [x]) := by simp [chainAux]

theorem drop_last_eq (l : List α) (g : α) (h : l.getLast? = some g) :
    l.drop (l.length - 1) = [g] := by
  induction l with
  | nil => simp at h
  | cons a l ih =>
    cases l with
    | nil => simp at h; simp [h]
    | cons b t =>
      rw [List.getLast?_cons_cons] at h
      have := ih h
      simpa [List.length_cons, Nat.succ_sub_one] using this

theorem pol_sum_cons (a : Vtx) (rest : List Vtx) (g : Vtx)
    (hg : (a :: rest).getLast? = some g) :
    pol_sum (a :: rest) = chainAux (fun p q => polTerm q p) (g :: a :: rest) := by
  rw [pol_sum, rotate_one_eq, drop_last_eq _ g hg, ← List.dropLast_eq_take,
    List.singleton_append, zip_pred_sum]

theorem spec_sum_cons (a : Vtx) (rest : List Vtx) :
    specShoelaceSum (a :: rest) = chainAux polTerm ((a :: rest) ++ [a]) := by
  rw [specShoelaceSum, rotate_neg_one_eq]
  simpa using zip_succ_sum polTerm (a :: rest) a

theorem shoelace_sum_cons (a : Vtx) (rest : List Vtx) :
    shoelaceSum (a :: rest) =
      chainAux (fun p q => p.1 * q.2.1 - q.1 * p.2.1) ((a :: rest) ++ [a]) := by
  rw [shoelaceSum, rotate_neg_one_eq]
  simpa using zip_succ_sum (fun p q => p.1 * q.2.1 - q.1 * p.2.1) (a :: rest) a

theorem polTerm_antisymm (a b : Vtx) : polTerm a b = -polTerm b a := by
  simp only [polTerm]
  ring

/-- The code's `pol_sum` (predecessor pairing) is the negative of the spec's
successor-pairing sum. -/
theorem pol_sum_eq_neg_spec (l : List Vtx) : pol_sum l = -specShoelaceSum l := by
  cases l with
  | nil => simp [pol_sum, specShoelaceSum, rotate]
  | cons a rest =>
    obtain ⟨g, hg⟩ : ∃ g, (a :: rest).getLast? = some g := by
      cases hh : (a :: rest).getLast? with
      | none => simp at hh
      | some g => exact ⟨g, rfl⟩
    rw [pol_sum_cons a rest g hg, spec_sum_cons,
      chainAux_neg_of (fun p q => polTerm q p) polTerm
        (fun p q => polTerm_antisymm q p) _]
    congr 1
    rw [chainAux_cons_head, chainAux_concat, hg]
    simp
    ring

/-- Reversing the polygon negates the code's winding sum. -/
theorem pol_sum_reverse (l : List Vtx) : pol_sum l.reverse = -pol_sum l := by
  cases l with
  | nil => simp [pol_sum, rotate]
  | cons a rest =>
    obtain ⟨g, hg⟩ : ∃ g, (a :: rest).getLast? = some g := by
      cases hh : (a :: rest).getLast? with
      | none => simp at hh
      | some g => exact ⟨g, rfl⟩
    have hrev : (a :: rest).reverse.head? = some g := by
      rw [List.head?_reverse, hg]
    rw [pol_sum_eq_neg_spec]
    cases hr : (a :: rest).reverse with
    | nil => simp at hr
    | cons b t =>
      have hb : b = g := by
        have := hrev
        rw [hr] at this
        simpa using this
      rw [spec_sum_cons, ← hr, hb]
      have : (a :: rest).reverse ++ [g] = (g :: a :: rest).reverse := by
        simp
      rw [this, chainAux_reverse]
      rw [pol_sum_cons a rest g hg]

/-- The code's winding sum equals the glossary's shoelace sum (twice the
signed area). -/
theorem pol_sum_eq_shoelace (l : List Vtx) : pol_sum l = shoelaceSum l := by
  cases l with
  | nil => simp [pol_sum, shoelaceSum, rotate]
  | cons a rest =>
    rw [pol_sum_eq_neg_spec, spec_sum_cons, shoelace_sum_cons]
    have hsplit : ∀ p q : Vtx, polTerm p q =
        (fun v : Vtx => v.1 * v.2.1) q - (fun v : Vtx => v.1 * v.2.1) p +
          -(p.1 * q.2.1 - q.1 * p.2.1) := by
      intro p q
      simp only [polTerm]
      ring
    have h1 : chainAux polTerm ((a :: rest) ++ [a]) =
        chainAux (fun p q => (fun v : Vtx => v.1 * v.2.1) q -
          (fun v : Vtx => v.1 * v.2.1) p) ((a :: rest) ++ [a]) +
        chainAux (fun p q => -(p.1 * q.2.1 - q.1 * p.2.1)) ((a :: rest) ++ [a]) := by
      rw [← chainAux_add]
      exact congrFun (congrArg chainAux (funext fun p => funext fun q => hsplit p q)) _
    rw [h1, chainAux_tele]
    have h2 : chainAux (fun p q : Vtx => -(p.1 * q.2.1 - q.1 * p.2.1))
        ((a :: rest) ++ [a]) =
        -chainAux (fun p q : Vtx => p.1 * q.2.1 - q.1 * p.2.1) ((a :: rest) ++ [a]) :=
      chainAux_neg_of _ _ (fun p q => rfl) _
    rw [h2]
    have hlast : ((a :: rest) ++ [a]).getLast? = some a := List.getLast?_concat _
    have hhead : ((a :: rest) ++ [a]).head? = some a := rfl
    rw [hlast, hhead]
    simp

/-! ### Claims C2 and C6 -/

/-- A counter-clockwise unit square (vertices already in 3D form). -/
def ccwSquare : List Vtx := [(0, 0, 0), (1, 0, 0), (1, 1, 0), (0, 1, 0)]

/-- A clockwise unit square. -/
def cwSquare : List Vtx := [(0, 1, 0), (1, 1, 0), (1, 0, 0), (0, 0, 0)]

/-- A clockwise triangle. -/
def cwTriangle : List Vtx := [(0, 1, 0), (1, 0, 0), (0, 0, 0)]

/-- Claim C2 (counterexample): on the counter-clockwise unit square the
spec's sum `Σ (x_{i+1}−x_i)(y_{i+1}+y_i)` is negative, so the claim says the
vertex order is returned unchanged; the code returns the reversed order. -/
theorem c2_counterexample :
    specShoelaceSum ccwSquare < 0 ∧
      convert_to_clockwise ccwSquare = .ok ccwSquare.reverse ∧
      ccwSquare.reverse ≠ ccwSquare := by
  refine ⟨by norm_num [specShoelaceSum, polTerm, rotate, pysliceFrom, pysliceTo, ccwSquare],
    by norm_num [convert_to_clockwise, pol_sum, polTerm, rotate, pysliceFrom, pysliceTo,
      ccwSquare],
    by norm_num [ccwSquare]⟩

/-- Claim C2 (amended): the code's cyclic sum pairs each vertex with its
cyclic predecessor, giving the NEGATIVE of the claimed sum
`S = Σ (x_{i+1}−x_i)(y_{i+1}+y_i)`; consequently the reversed order is
returned when `S < 0`, the order is returned unchanged when `S > 0`, and
the run fails with the degenerate-polygon error when `S = 0`. -/
theorem c2_amended (l : List Vtx) :
    (specShoelaceSum l < 0 → convert_to_clockwise l = .ok l.reverse) ∧
      (specShoelaceSum l > 0 → convert_to_clockwise l = .ok l) ∧
      (specShoelaceSum l = 0 → convert_to_clockwise l = .error .degeneratePolygon) := by
  have h := pol_sum_eq_neg_spec l
  unfold convert_to_clockwise
  refine ⟨fun hs => ?_, fun hs => ?_, fun hs => ?_⟩
  · rw [if_neg (by rw [h]; exact by linarith), if_pos (by rw [h]; linarith)]
  · rw [if_neg (by rw [h]; exact by linarith)]
    rw [if_neg (by rw [h]; exact by linarith)]
  · rw [if_pos (by rw [h, hs]; ring)]

/-- Witness for `c2_amended` on the clockwise unit square (positive spec
sum, order kept). -/
theorem c2_amended_witness : convert_to_clockwise cwSquare = .ok cwSquare :=
  (c2_amended cwSquare).2.1
    (by norm_num [specShoelaceSum, polTerm, rotate, pysliceFrom, pysliceTo, cwSquare])

/-- Claim C6: winding normalization is idempotent.  With the glossary's
shoelace sum (twice the signed area, negative exactly for clockwise input):
a polygon already clockwise is returned unchanged, and for any polygon of
nonzero signed area normalizing twice equals normalizing once. -/
theorem c6_idempotent (l : List Vtx) :
    (shoelaceSum l < 0 → convert_to_clockwise l = .ok l) ∧
      (shoelaceSum l ≠ 0 →
        (convert_to_clockwise l).bind convert_to_clockwise = convert_to_clockwise l) := by
  have hps := pol_sum_eq_shoelace l
  constructor
  · intro hs
    unfold convert_to_clockwise
    rw [if_neg (by rw [hps]; exact by linarith), if_neg (by rw [hps]; exact by linarith)]
  · intro hs
    rcases lt_trichotomy (shoelaceSum l) 0 with hneg | hzero | hpos
    · have h1 : convert_to_clockwise l = .ok l := by
        unfold convert_to_clockwise
        rw [if_neg (by rw [hps]; exact by linarith),
          if_neg (by rw [hps]; exact by linarith)]
      rw [h1]
      simpa using h1
    · exact absurd hzero hs
    · have h1 : convert_to_clockwise l = .ok l.reverse := by
        unfold convert_to_clockwise
        rw [if_neg (by rw [hps]; exact by linarith),
          if_pos (by rw [hps]; linarith)]
      have hrev : pol_sum l.reverse = -pol_sum l := pol_sum_reverse l
      have h2 : convert_to_clockwise l.reverse = .ok l.reverse := by
        unfold convert_to_clockwise
        rw [if_neg (by rw [hrev, hps]; exact by linarith),
          if_neg (by rw [hrev, hps]; exact by linarith)]
      rw [h1]
      simpa using h2

/-- Witness for `c6_idempotent` on a clockwise triangle. -/
theorem c6_witness :
    (convert_to_clockwise cwTriangle).bind convert_to_clockwise =
      convert_to_clockwise cwTriangle :=
  (c6_idempotent cwTriangle).2
    (by norm_num [shoelaceSum, rotate, pysliceFrom, pysliceTo, cwTriangle])

/-! ### The validation pipeline (`generate_assembly` and the module-level
input checks)

Input values parsed by `ast.literal_eval` are modelled by `PyVal`
(numbers and lists; other literal shapes behave like further non-list,
non-number scalars and are not needed by the claims).  The record-emitting
phase after validation (lines 434-443: `generate_part`, `part_2_assembly`
and the file write) is abstracted as a parameter `build`: the claims C8 and
C9 concern only the validation/normalization prefix, and quantifying over
`build` shows the prefix neither consults nor affects it.  The face-level
construction itself is modelled separately below. -/

/-- A parsed Python input value. -/
inductive PyVal where
  | num (q : ℚ)
  | lst (l : List PyVal)

/-- `isinstance(v, Number)`. -/
def PyVal.isNum : PyVal → Bool
  | .num _ => true
  | .lst _ => false

/-- `isinstance(v, list)`. -/
def PyVal.isList : PyVal → Bool
  | .num _ => false
  | .lst _ => true

/-- Python truth test `not v`: zero and the empty list are falsy. -/
def PyVal.falsy : PyVal → Bool
  | .num q => q = 0
  | .lst l => l.isEmpty

/-- Numeric extraction, used only after an `isinstance(·, Number)` check. -/
def PyVal.toQ : PyVal → Except Err ℚ
  | .num q => .ok q
  | .lst _ => .error .shapeInvariant

/-- Python `len(v)`: `TypeError` on a number. -/
def pyLen : PyVal → Except Err Nat
  | .num _ => .error .typeError
  | .lst l => .ok l.length

/-- Python list indexing `l[i]` (non-negative index): `IndexError` when out
of range. -/
def pyget (l : List α) (i : Nat) : Except Err α :=
  match l.get? i with
  | some a => .ok a
  | none => .error .indexError

/-- A Python list comprehension `[f(x) for x in l]` over fallible `f`:
left-to-right, stopping at the first error. -/
def exMap (f : α → Except Err β) : List α → Except Err (List β)
  | [] => .ok []
  | x :: xs => do
    let y ← f x
    let ys ← exMap f xs
    .ok (y :: ys)

theorem exMap_ok_length (f : α → Except Err β) (l : List α) (r : List β)
    (h : exMap f l = .ok r) : r.length = l.length := by
  induction l generalizing r with
  | nil => simp [exMap] at h; simp [← h]
  | cons x xs ih =>
    simp only [exMap] at h
    cases hy : f x with
    | error e => rw [hy] at h; simp at h
    | ok y =>
      rw [hy] at h
      simp only [ok_bind] at h
      cases hys : exMap f xs with
      | error e => rw [hys] at h; simp at h
      | ok ys =>
        rw [hys] at h
        simp only [ok_bind, pure_eq_ok, Except.ok.injEq] at h
        rw [← h]
        simp [ih ys hys]

theorem exMap_ok_forall (f : α → Except Err β) (l : List α) (r : List β)
    (h : exMap f l = .ok r) : ∀ x ∈ l, ∃ y, f x = .ok y := by
  induction l generalizing r with
  | nil => simp
  | cons x xs ih =>
    simp only [exMap] at h
    cases hy : f x with
    | error e => rw [hy] at h; simp at h
    | ok y =>
      rw [hy] at h
      simp only [ok_bind] at h
      cases hys : exMap f xs with
      | error e => rw [hys] at h; simp at h
      | ok ys =>
        intro z hz
        rcases List.mem_cons.mp hz with rfl | hz'
        · exact ⟨y, hy⟩
        · exact ih ys hys z hz'

/-- `convert_3d(element_in)`: a two-component numeric vertex gains a third
zero coordinate; anything else is returned unchanged. -/
def convert_3d : PyVal → PyVal
  | .lst [.num a, .num b] => .lst [.num a, .num b, .num 0]
  | v => v

/-- Typed extraction of a validated, `convert_3d`-converted vertex (exactly
three numbers).  This reifies the dynamic-typing invariant that validation
establishes; the Python code needs no such step. -/
def pyToVtx : PyVal → Except Err Vtx
  | .lst [.num a, .num b, .num c] => .ok (a, b, c)
  | _ => .error .shapeInvariant

/-- The checks run for one vertex inside `generate_assembly`'s nested loop.
As in the source, the inner `isinstance` check inspects the *part*, not the
vertex (`if not isinstance(part_element, list)` at line 407). -/
def checkVertex (part v : PyVal) : Except Err Unit :=
  if v.falsy then .error .vertexEmpty
  else if ¬ part.isList then .error .vertexScalar
  else match v with
    | .num _ => .error .typeError
    | .lst cs =>
      if cs.length < 2 ∨ 3 < cs.length then .error .vertexLen
      else (exMap (fun c => if c.isNum then Except.ok () else Except.error Err.coordNaN) cs).map
        fun _ => ()

/-- The checks run for one polygon: emptiness (Python falsiness), the
`isinstance` check, then the vertex loop. -/
def checkPart : PyVal → Except Err Unit
  | .num q => if (PyVal.num q).falsy then .error .polyEmpty else .error .polyScalar
  | .lst vs =>
    if (PyVal.lst vs).falsy then .error .polyEmpty
    else (exMap (checkVertex (.lst vs)) vs).map fun _ => ()

/-- The coefficient checks: `isinstance(p_coeff, Number)` and `p_coeff == 0`. -/
def coeffCheck : PyVal → Except Err ℚ
  | .num q => if q = 0 then .error .coeffZero else .ok q
  | .lst _ => .error .coeffNaN

/-- `isinstance(geom_depth_list, list)`. -/
def depthAsList : PyVal → Except Err (List PyVal)
  | .lst l => .ok l
  | .num _ => .error .depthScalar

/-- `isinstance(list_vert_list, list)`. -/
def partsAsList : PyVal → Except Err (List PyVal)
  | .lst l => .ok l
  | .num _ => .error .partsScalar

/-- `isinstance(data, list)` at module level. -/
def topAsList : PyVal → Except Err (List PyVal)
  | .lst l => .ok l
  | .num _ => .error .topNotList

/-- One polygon after the `convert_3d` comprehension (the iteration requires
the polygon to be a list, which validation has established). -/
def part3d : PyVal → Except Err (List PyVal)
  | .lst vs => .ok (vs.map convert_3d)
  | .num _ => .error .shapeInvariant

/-- `generate_assembly(list_vert_list, geom_depth_list, p_coeff)` up to the
record-emitting phase, which is the abstract `build`. -/
def generate_assembly {α : Type} (build : List (List Vtx) → List ℚ → α)
    (list_vert_list geom_depth_list p_coeff : PyVal) : Except Err α := do
  let pq ← coeffCheck p_coeff
  let ds ← depthAsList geom_depth_list
  let _ ← (if ds.isEmpty then Except.error Err.depthEmpty else Except.ok ())
  let _ ← exMap (fun d => if d.isNum then Except.ok () else Except.error Err.depthNaN) ds
  let qs ← exMap PyVal.toQ ds
  let z0 ← pyget qs 0
  let z1 ← pyget qs 1
  let _ ← (if z0 = z1 then Except.error Err.depthEqual else Except.ok ())
  let qs' := if z0 > z1 then (qs.set 0 z1).set 1 z0 else qs
  let parts ← partsAsList list_vert_list
  let _ ← (if parts.isEmpty then Except.error Err.partsEmpty else Except.ok ())
  let _ ← exMap checkPart parts
  let parts3 ← exMap part3d parts
  let typed ← exMap (fun vs => exMap pyToVtx vs) parts3
  let cw ← exMap convert_to_clockwise typed
  let scaled := cw.map fun vs => vs.map fun v => (pq * v.1, pq * v.2.1, pq * v.2.2)
  let dsScaled := qs'.map fun z => pq * z
  pure (build scaled dsScaled)

/-- The module-level input checks (`isinstance(data, list)`, `len(data) == 3`)
followed by `generate_assembly(data[0], data[1], data[2])`. -/
def run_program {α : Type} (build : List (List Vtx) → List ℚ → α)
    (data : PyVal) : Except Err α := do
  let l ← topAsList data
  let _ ← (if l.length ≠ 3 then Except.error Err.topLenNot3 else Except.ok ())
  let a0 ← pyget l 0
  let a1 ← pyget l 1
  let a2 ← pyget l 2
  generate_assembly build a0 a1 a2

theorem exMap_ok_mem_rel (f : α → Except Err β) (l : List α) (r : List β)
    (h : exMap f l = .ok r) (x : α) (hx : x ∈ l) : ∃ y, y ∈ r ∧ f x = .ok y := by
  induction l generalizing r with
  | nil => simp at hx
  | cons z zs ih =>
    simp only [exMap] at h
    cases hy : f z with
    | error e => rw [hy] at h; simp at h
    | ok y =>
      rw [hy] at h
      simp only [ok_bind] at h
      cases hys : exMap f zs with
      | error e => rw [hys] at h; simp at h
      | ok ys =>
        rw [hys] at h
        simp only [ok_bind, pure_eq_ok, Except.ok.injEq] at h
        subst h
        rcases List.mem_cons.mp hx with rfl | hx'
        · exact ⟨y, List.mem_cons_self .., hy⟩
        · obtain ⟨w, hw, hfw⟩ := ih ys hys hx'
          exact ⟨w, List.mem_cons_of_mem _ hw, hfw⟩

theorem exMap_get? (f : α → Except Err β) (l : List α) (r : List β)
    (h : exMap f l = .ok r) (i : Nat) (y : β) (hy : r.get? i = some y) :
    ∃ x, l.get? i = some x ∧ f x = .ok y := by
  induction l generalizing r i with
  | nil =>
    simp only [exMap, pure_eq_ok, Except.ok.injEq] at h
    subst h
    simp at hy
  | cons z zs ih =>
    simp only [exMap] at h
    cases hz : f z with
    | error e => rw [hz] at h; simp at h
    | ok w =>
      rw [hz] at h
      simp only [ok_bind] at h
      cases hws : exMap f zs with
      | error e => rw [hws] at h; simp at h
      | ok ws =>
        rw [hws] at h
        simp only [ok_bind, pure_eq_ok, Except.ok.injEq] at h
        subst h
        cases i with
        | zero =>
          simp only [List.get?_cons_zero, Option.some.injEq] at hy
          subst hy
          exact ⟨z, rfl, hz⟩
        | succ n =>
          simp only [List.get?_cons_succ] at hy ⊢
          exact ih ws hws n hy

theorem checkVertex_ok (part v : PyVal) (u : Unit) (h : checkVertex part v = .ok u) :
    ∃ cs, v = .lst cs ∧ 2 ≤ cs.length ∧ cs.length ≤ 3 ∧ ∀ c ∈ cs, c.isNum = true := by
  unfold checkVertex at h
  split at h
  · simp at h
  · split at h
    · simp at h
    · cases v with
      | num q => simp at h
      | lst cs =>
        dsimp only at h
        split at h
        next hlen => simp at h
        next hlen =>
          push_neg at hlen
          cases hex : exMap (fun c => if c.isNum then Except.ok ()
              else Except.error Err.coordNaN) cs with
          | error e => rw [hex] at h; simp [Except.map] at h
          | ok us =>
            refine ⟨cs, rfl, hlen.1, hlen.2, fun c hc => ?_⟩
            obtain ⟨y, hfy⟩ := exMap_ok_forall _ _ _ hex c hc
            cases hn : c.isNum with
            | true => rfl
            | false => rw [hn] at hfy; simp at hfy

theorem checkPart_ok (part : PyVal) (u : Unit) (h : checkPart part = .ok u) :
    ∃ vs, part = .lst vs ∧ vs ≠ [] ∧
      ∀ v ∈ vs, ∃ cs, v = .lst cs ∧ 2 ≤ cs.length ∧ cs.length ≤ 3 ∧
        ∀ c ∈ cs, c.isNum = true := by
  cases part with
  | num q =>
    simp only [checkPart] at h
    split at h <;> simp at h
  | lst vs =>
    simp only [checkPart] at h
    split at h
    · simp at h
    next hf =>
      cases hex : exMap (checkVertex (.lst vs)) vs with
      | error e => rw [hex] at h; simp [Except.map] at h
      | ok us =>
        refine ⟨vs, rfl, ?_, fun v hv => ?_⟩
        · intro hnil
          subst hnil
          simp [PyVal.falsy] at hf
        · obtain ⟨y, hfy⟩ := exMap_ok_forall _ _ _ hex v hv
          exact checkVertex_ok _ _ y hfy

theorem convert_to_clockwise_ok_ne (l r : List Vtx)
    (h : convert_to_clockwise l = .ok r) : pol_sum l ≠ 0 := by
  intro h0
  unfold convert_to_clockwise at h
  rw [if_pos h0] at h
  simp at h

/-! ### Claims C8 and C9 -/

/-- Claim C8: an input interval with `z1 > z2` is accepted and the run
proceeds exactly as with the sorted interval: the bounds are swapped before
any geometry (the abstract `build` phase) is consulted, so the two runs are
equal for every build phase, polygon input and coefficient. -/
theorem c8_swap {α : Type} (build : List (List Vtx) → List ℚ → α)
    (polys coeff : PyVal) (z1 z2 : ℚ) (h : z1 > z2) :
    generate_assembly build polys (.lst [.num z1, .num z2]) coeff =
      generate_assembly build polys (.lst [.num z2, .num z1]) coeff := by
  unfold generate_assembly
  cases coeff with
  | lst l => rfl
  | num q =>
    by_cases hq : q = 0
    · simp [coeffCheck, hq]
    · have h1 : z1 ≠ z2 := ne_of_gt h
      have h3 : ¬ (z2 > z1) := lt_asymm h
      simp [coeffCheck, depthAsList, hq, exMap, PyVal.isNum, PyVal.toQ, pyget,
        h, h1, h1.symm, h3]

/-- A concrete polygon input: the unit square `[[0,0],[1,0],[1,1],[0,1]]`. -/
def sqInput : PyVal :=
  .lst [.lst [.num 0, .num 0], .lst [.num 1, .num 0],
    .lst [.num 1, .num 1], .lst [.num 0, .num 1]]

/-- Witness for `c8_swap`: the square extruded over the reversed interval
`[2, 0]` generates exactly what the interval `[0, 2]` generates. -/
theorem c8_witness :
    generate_assembly (fun ps ds => (ps, ds)) (.lst [sqInput])
        (.lst [.num 2, .num 0]) (.num 10) =
      generate_assembly (fun ps ds => (ps, ds)) (.lst [sqInput])
        (.lst [.num 0, .num 2]) (.num 10) :=
  c8_swap _ _ _ 2 0 (by norm_num)

/-- The conditions claim C9 enumerates, as facts about the input value: the
top level is a list of exactly three entries (polygon list, interval,
coefficient); the coefficient is a nonzero number; the interval is a
nonempty list of numbers whose first two entries differ; the polygon list is
a nonempty list of nonempty polygons whose vertices are lists of 2 or 3
numbers; and every polygon, after `convert_3d`, has nonzero winding sum. -/
def validInput (data : PyVal) : Prop :=
  ∃ pl dl cq,
    data = .lst [.lst pl, .lst dl, .num cq] ∧
    cq ≠ 0 ∧
    dl ≠ [] ∧
    (∀ d ∈ dl, d.isNum = true) ∧
    (∃ z0 z1 : ℚ, dl.get? 0 = some (.num z0) ∧ dl.get? 1 = some (.num z1) ∧ z0 ≠ z1) ∧
    pl ≠ [] ∧
    (∀ part ∈ pl, ∃ vs, part = .lst vs ∧ vs ≠ [] ∧
      (∀ v ∈ vs, ∃ cs, v = .lst cs ∧ 2 ≤ cs.length ∧ cs.length ≤ 3 ∧
        ∀ c ∈ cs, c.isNum = true) ∧
      (∃ tri, exMap pyToVtx (vs.map convert_3d) = .ok tri ∧ pol_sum tri ≠ 0))

/-- Claim C9: validation is eager — whenever the run completes (the model
returns `.ok`, i.e. the record-emitting build phase was reached and the
output produced), the input satisfied every validation check; consequently
an input failing any of the enumerated checks makes the run abort with an
error before the build phase — which the run never consults, as it is
abstract here — so no record is emitted and no output is produced. -/
theorem c9_validation {α : Type} (build : List (List Vtx) → List ℚ → α)
    (data : PyVal) (a : α) (h : run_program build data = .ok a) : validInput data := by
  unfold run_program at h
  cases data with
  | num q => simp [topAsList] at h
  | lst l =>
    rw [show topAsList (.lst l) = .ok l from rfl] at h
    simp only [ok_bind] at h
    by_cases hl : l.length ≠ 3
    · rw [if_pos hl] at h; simp at h
    · rw [if_neg hl] at h
      simp only [ok_bind] at h
      push_neg at hl
      obtain ⟨a0, a1, a2, rfl⟩ : ∃ x y z, l = [x, y, z] := by
        cases l with
        | nil => simp at hl
        | cons x t1 =>
          cases t1 with
          | nil => simp at hl
          | cons y t2 =>
            cases t2 with
            | nil => simp at hl
            | cons z t3 =>
              cases t3 with
              | nil => exact ⟨x, y, z, rfl⟩
              | cons w t4 => simp at hl
      rw [show pyget [a0, a1, a2] 0 = .ok a0 from rfl,
        show pyget [a0, a1, a2] 1 = .ok a1 from rfl,
        show pyget [a0, a1, a2] 2 = .ok a2 from rfl] at h
      simp only [ok_bind] at h
      unfold generate_assembly at h
      cases a2 with
      | lst l2 => simp [coeffCheck] at h
      | num cq =>
        by_cases hcq : cq = 0
        · simp [coeffCheck, hcq] at h
        · rw [show coeffCheck (.num cq) = .ok cq by simp [coeffCheck, hcq]] at h
          simp only [ok_bind] at h
          cases a1 with
          | num qd => simp [depthAsList] at h
          | lst dl =>
            rw [show depthAsList (.lst dl) = .ok dl from rfl] at h
            simp only [ok_bind] at h
            cases hde : dl.isEmpty with
            | true => rw [hde] at h; simp at h
            | false =>
              rw [hde] at h
              simp only [Bool.false_eq_true, if_false, ok_bind] at h
              cases hnum : exMap (fun d => if d.isNum then Except.ok ()
                  else Except.error Err.depthNaN) dl with
              | error e => rw [hnum] at h; simp at h
              | ok us =>
                rw [hnum] at h
                simp only [ok_bind] at h
                cases hqs : exMap PyVal.toQ dl with
                | error e => rw [hqs] at h; simp at h
                | ok qs =>
                  rw [hqs] at h
                  simp only [ok_bind] at h
                  cases hz0 : pyget qs 0 with
                  | error e => rw [hz0] at h; simp at h
                  | ok z0 =>
                    rw [hz0] at h
                    simp only [ok_bind] at h
                    cases hz1 : pyget qs 1 with
                    | error e => rw [hz1] at h; simp at h
                    | ok z1 =>
                      rw [hz1] at h
                      simp only [ok_bind] at h
                      by_cases hzeq : z0 = z1
                      · rw [if_pos hzeq] at h; simp at h
                      · rw [if_neg hzeq] at h
                        simp only [ok_bind] at h
                        cases a0 with
                        | num q0 => simp [partsAsList] at h
                        | lst pl =>
                          rw [show partsAsList (.lst pl) = .ok pl from rfl] at h
                          simp only [ok_bind] at h
                          cases hpe : pl.isEmpty with
                          | true => rw [hpe] at h; simp at h
                          | false =>
                            rw [hpe] at h
                            simp only [Bool.false_eq_true, if_false, ok_bind] at h
                            cases hcp : exMap checkPart pl with
                            | error e => rw [hcp] at h; simp at h
                            | ok cps =>
                              rw [hcp] at h
                              simp only [ok_bind] at h
                              cases hp3 : exMap part3d pl with
                              | error e => rw [hp3] at h; simp at h
                              | ok parts3 =>
                                rw [hp3] at h
                                simp only [ok_bind] at h
                                cases hty : exMap (fun vs => exMap pyToVtx vs) parts3 with
                                | error e => rw [hty] at h; simp at h
                                | ok typed =>
                                  rw [hty] at h
                                  simp only [ok_bind] at h
                                  cases hcw : exMap convert_to_clockwise typed with
                                  | error e => rw [hcw] at h; simp at h
                                  | ok cwres =>
                                    refine ⟨pl, dl, cq, rfl, hcq, ?_, ?_, ?_, ?_, ?_⟩
                                    · intro hnil
                                      simp [hnil] at hde
                                    · intro d hd
                                      obtain ⟨y, hfy⟩ := exMap_ok_forall _ _ _ hnum d hd
                                      cases hn : d.isNum with
                                      | true => rfl
                                      | false => rw [hn] at hfy; simp at hfy
                                    · have hq0 : qs.get? 0 = some z0 := by
                                        unfold pyget at hz0
                                        cases hg : qs.get? 0 with
                                        | none => rw [hg] at hz0; simp at hz0
                                        | some w =>
                                          rw [hg] at hz0
                                          simp only [Except.ok.injEq] at hz0
                                          rw [hz0]
                                      have hq1 : qs.get? 1 = some z1 := by
                                        unfold pyget at hz1
                                        cases hg : qs.get? 1 with
                                        | none => rw [hg] at hz1; simp at hz1
                                        | some w =>
                                          rw [hg] at hz1
                                          simp only [Except.ok.injEq] at hz1
                                          rw [hz1]
                                      obtain ⟨d0, hd0, htq0⟩ := exMap_get? _ _ _ hqs 0 z0 hq0
                                      obtain ⟨d1, hd1, htq1⟩ := exMap_get? _ _ _ hqs 1 z1 hq1
                                      refine ⟨z0, z1, ?_, ?_, hzeq⟩
                                      · cases d0 with
                                        | num w =>
                                          simp only [PyVal.toQ, Except.ok.injEq] at htq0
                                          rw [htq0] at hd0
                                          exact hd0
                                        | lst w => simp [PyVal.toQ] at htq0
                                      · cases d1 with
                                        | num w =>
                                          simp only [PyVal.toQ, Except.ok.injEq] at htq1
                                          rw [htq1] at hd1
                                          exact hd1
                                        | lst w => simp [PyVal.toQ] at htq1
                                    · intro hnil
                                      simp [hnil] at hpe
                                    · intro part hpart
                                      obtain ⟨u, _, hchk⟩ := exMap_ok_mem_rel _ _ _ hcp part hpart
                                      obtain ⟨vs, rfl, hvne, hvstruct⟩ := checkPart_ok part u hchk
                                      obtain ⟨y1, hy1mem, hy1⟩ := exMap_ok_mem_rel _ _ _ hp3 _ hpart
                                      have hy1v : y1 = vs.map convert_3d := by
                                        simp only [part3d, Except.ok.injEq] at hy1
                                        exact hy1.symm
                                      obtain ⟨y2, hy2mem, hy2⟩ := exMap_ok_mem_rel _ _ _ hty y1 hy1mem
                                      obtain ⟨y3, _, hy3⟩ := exMap_ok_mem_rel _ _ _ hcw y2 hy2mem
                                      refine ⟨vs, rfl, hvne, hvstruct, y2, ?_, ?_⟩
                                      · rw [← hy1v]; exact hy2
                                      · exact convert_to_clockwise_ok_ne _ _ hy3

/-- Witness for `c9_validation`: the spec's concrete scenario — unit square,
interval `[0, 2]`, coefficient `10` — runs to completion (producing the
square scaled by 10 in clockwise order and the interval scaled to `[0, 20]`),
so its input satisfies every validation condition. -/
theorem c9_witness :
    validInput (.lst [.lst [sqInput], .lst [.num 0, .num 2], .num 10]) :=
  c9_validation (fun ps ds => (ps, ds)) _
    ([[((0 : ℚ), (10 : ℚ), (0 : ℚ)), (10, 10, 0), (10, 0, 0), (0, 0, 0)]], [(0 : ℚ), 20])
    (by norm_num [run_program, generate_assembly, topAsList, coeffCheck, depthAsList,
      partsAsList, part3d, exMap, pyget, PyVal.isNum, PyVal.toQ, PyVal.falsy,
      checkPart, checkVertex, convert_3d, pyToVtx, convert_to_clockwise, pol_sum,
      polTerm, rotate, pysliceFrom, pysliceTo, sqInput, Except.map, List.set,
      PyVal.isList])

/-! ### The face-construction layer (real coordinates)

`normalize` divides by `math.sqrt`, so this layer is modelled over the
reals.  The registry interning performed by the face builders (points,
edges, loops, planes) only assigns ids; the geometric content of an
`ADVANCED_FACE` — the vertex order handed to the edge loop, the frame
origin and the two frame directions — is kept in `FaceData`.  Python's
`ZeroDivisionError` (division by a zero magnitude) and `IndexError` are
modelled through `Except`. -/

/-- A Python list of floats. -/
abbrev RVec := List ℝ

/-- `normalize(vector_in)`: exit unless 3 components; then divide each
component by the magnitude — Python raises `ZeroDivisionError` when the
magnitude is `0.0`, modelled as `.error .zeroDivision`. -/
noncomputable def normalize (v : RVec) : Except Err RVec :=
  if v.length ≠ 3 then .error .notCoord3D
  else if Real.sqrt ((v.map fun i => i ^ 2).sum) = 0 then .error .zeroDivision
  else .ok (v.map fun x => x / Real.sqrt ((v.map fun i => i ^ 2).sum))

/-- `cross_product(x, y)`: component formula over indices 0..2
(`IndexError` on shorter lists). -/
def cross_product (x y : RVec) : Except Err RVec := do
  let x0 ← pyget x 0
  let x1 ← pyget x 1
  let x2 ← pyget x 2
  let y0 ← pyget y 0
  let y1 ← pyget y 1
  let y2 ← pyget y 2
  pure [-x2 * y1 + x1 * y2, x2 * y0 - x0 * y2, -x1 * y0 + x0 * y1]

/-- `list(map(operator.add, a, b))`: pointwise, truncating at the shorter
list as Python's `map` does. -/
def vadd (a b : RVec) : RVec := List.zipWith (· + ·) a b

/-- `list(map(operator.sub, a, b))`. -/
def vsub (a b : RVec) : RVec := List.zipWith (· - ·) a b

/-- The geometric content of one `ADVANCED_FACE` built by
`advanced_face_0`: the vertex order handed to `edge_loop_1`, and the
`AXIS2_PLACEMENT_3D` frame (origin, z direction, x direction). -/
structure FaceData where
  loopVerts : List RVec
  origin : RVec
  axisDir : RVec
  refDir : RVec

/-- `advanced_face_0(vertices, zaxis)`: compare `normalize(zaxis) +
normalize(cross_product(vertices[2] − vertices[1], vertices[2] −
vertices[0]))` with `[0, 0, 0]` (exact equality); keep the vertex order if
they cancel, otherwise reverse it.  The frame origin is `vertices[0]` in
both branches; the frame x direction is the normalized first edge of the
order actually used. -/
noncomputable def advanced_face_0 (vertices : List RVec) (zaxis : RVec) :
    Except Err FaceData := do
  let nz ← normalize zaxis
  let v2 ← pyget vertices 2
  let v1 ← pyget vertices 1
  let v0 ← pyget vertices 0
  let c ← cross_product (vsub v2 v1) (vsub v2 v0)
  let cn ← normalize c
  if vadd nz cn = [0, 0, 0] then
    let rd ← normalize (vsub v1 v0)
    pure ⟨vertices, v0, nz, rd⟩
  else
    let r := vertices.reverse
    let r0 ← pyget r 0
    let r1 ← pyget r 1
    let rd ← normalize (vsub r1 r0)
    pure ⟨r, v0, nz, rd⟩

/-- `zface(vertex1, vertex2, geom_depth_list)`: one lateral rectangular
face, with target normal `normalize(cross_product(vertex2 − vertex1,
[0, 0, −(z_pos − z_neg)]))`. -/
noncomputable def zface (vertex1 vertex2 : RVec) (geomDepth : List ℝ) :
    Except Err FaceData := do
  let zneg ← pyget geomDepth 0
  let zpos ← pyget geomDepth 1
  let c ← cross_product (vsub vertex2 vertex1) [0, 0, -(zpos - zneg)]
  let hint ← normalize c
  advanced_face_0
    [vadd vertex1 [0, 0, zneg], vadd vertex2 [0, 0, zneg],
      vadd vertex2 [0, 0, zpos], vadd vertex1 [0, 0, zpos]] hint

/-- `xyface(vertex_list, depth, zdir)`: the polygon lifted to `z = depth`
with target normal `zdir`. -/
noncomputable def xyface (vertexList : List RVec) (depth : ℝ) (zdir : RVec) :
    Except Err FaceData :=
  advanced_face_0 (vertexList.map fun x => vadd x [0, 0, depth]) zdir

/-- `af2d3d(vertex_list, geom_depth_list)`: the top face at `z_pos` with
target normal `[0,0,1]`, the bottom face at `z_neg` with target normal
`[0,0,-1]`, then one `zface` per consecutive vertex pair (the list zipped
with `rotate(vertex_list, -1)`). -/
noncomputable def af2d3d (vertexList : List RVec) (geomDepth : List ℝ) :
    Except Err (List FaceData) := do
  let zneg ← pyget geomDepth 0
  let zpos ← pyget geomDepth 1
  let top ← xyface vertexList zpos [0, 0, 1]
  let bot ← xyface vertexList zneg [0, 0, -1]
  let lats ← exMap (fun p => zface p.1 p.2 geomDepth)
    (vertexList.zip (rotate vertexList (-1)))
  pure (top :: bot :: lats)

/-- The one `CLOSED_SHELL` record built by `closed_shell`: it wraps exactly
the given face list. -/
structure ShellData where
  faces : List FaceData

/-- The one `MANIFOLD_SOLID_BREP` record built by `manifold_solid_brep`:
it wraps exactly one shell and carries the (incremented) human-readable
part-naming counter `part_body_index`. -/
structure SolidData where
  partBodyIndex : Nat
  shell : ShellData

/-- `closed_shell(advanced_face_ln_list)`. -/
def closed_shell (faces : List FaceData) : ShellData := ⟨faces⟩

/-- `manifold_solid_brep(closed_shell_ln)`, threading the global
`part_body_index`. -/
def manifold_solid_brep (shell : ShellData) (partBodyIndex : Nat) :
    SolidData × Nat :=
  (⟨partBodyIndex, shell⟩, partBodyIndex + 1)

/-- `af_list_2_part(af_list) = manifold_solid_brep(closed_shell(af_list))`. -/
def af_list_2_part (afList : List FaceData) (partBodyIndex : Nat) :
    SolidData × Nat :=
  manifold_solid_brep (closed_shell afList) partBodyIndex

/-! ### Claim C4 -/

/-- Claim C4 (evaluation at the failing input): `normalize` on the
zero 3-vector fails through Python's unguarded division by the zero
magnitude (`ZeroDivisionError`), not through any named
degenerate-vector error — no such named error exists in the code. -/
theorem c4_normalize_zero : normalize [0, 0, 0] = .error .zeroDivision := by
  unfold normalize
  norm_num

/-! ### Claim C1 -/

/-- The normal `advanced_face_0` actually computes:
`cross_product(vertices[2] − vertices[1], vertices[2] − vertices[0])`. -/
def codeNormal (vertices : List RVec) : Except Err RVec := do
  let v2 ← pyget vertices 2
  let v1 ← pyget vertices 1
  let v0 ← pyget vertices 0
  cross_product (vsub v2 v1) (vsub v2 v0)

/-- The branch condition `advanced_face_0` actually tests: the normalized
hint plus the normalized computed normal is exactly the zero vector. -/
def codeOpposite (vertices : List RVec) (zaxis : RVec) : Prop :=
  ∃ nz c cn, normalize zaxis = .ok nz ∧ codeNormal vertices = .ok c ∧
    normalize c = .ok cn ∧ vadd nz cn = [0, 0, 0]

/-- From the spec's words (claim C1): the claimed face normal
`cross(v2 − v1, v3 − v1)` over the first three vertices. -/
def specClaimNormal (vertices : List RVec) : Except Err RVec := do
  let v0 ← pyget vertices 0
  let v1 ← pyget vertices 1
  let v2 ← pyget vertices 2
  cross_product (vsub v1 v0) (vsub v2 v0)

/-- From the spec's words (claim C1): the claimed reversal condition — the
claimed normal points opposite to the hint (their normalized sum is the
zero vector). -/
def specClaimOpposite (vertices : List RVec) (zaxis : RVec) : Prop :=
  ∃ nz c cn, normalize zaxis = .ok nz ∧ specClaimNormal vertices = .ok c ∧
    normalize c = .ok cn ∧ vadd nz cn = [0, 0, 0]

/-- Skew counterexample input: a triangle whose computed normal is neither
along nor against the hint. -/
def cx1V : List RVec := [[0, 0, 0], [1, 0, 0], [1, 1, 0]]

/-- Hint for `cx1V`, in the triangle's plane's, er, y direction. -/
def cx1H : RVec := [0, 1, 0]

/-- Planar counterexample input: a clockwise unit square lifted to `z = 1`
(a top face as `xyface` builds it). -/
def cx2V : List RVec := [[0, 0, 1], [0, 1, 1], [1, 1, 1], [1, 0, 1]]

/-- Hint for `cx2V`: the upward normal. -/
def cx2H : RVec := [0, 0, 1]

set_option maxHeartbeats 1600000 in
/-- Evaluation of `advanced_face_0` at the skew input. -/
theorem af0_cx1_eval : advanced_face_0 cx1V cx1H =
    .ok ⟨[[1, 1, 0], [1, 0, 0], [0, 0, 0]], [0, 0, 0], [0, 1, 0], [0, -1, 0]⟩ := by
  norm_num [advanced_face_0, normalize, cross_product, pyget, vadd, vsub,
    cx1V, cx1H, FaceData.mk.injEq]

set_option maxHeartbeats 1600000 in
/-- Evaluation of `advanced_face_0` at the lifted clockwise square. -/
theorem af0_cx2_eval : advanced_face_0 cx2V cx2H =
    .ok ⟨[[1, 0, 1], [1, 1, 1], [0, 1, 1], [0, 0, 1]], [0, 0, 1], [0, 0, 1], [0, 1, 0]⟩ := by
  norm_num [advanced_face_0, normalize, cross_product, pyget, vadd, vsub,
    cx2V, cx2H, FaceData.mk.injEq]

/-- Claim C1 (counterexample).  First input (skew): the claim's condition
does not hold — the claimed normal `cross(v2−v1, v3−v1)` is not opposite
the hint — so the claim says the original vertex order is kept; the code
reverses it.  Second input (planar top face): the claim's condition holds
and the code indeed reverses, but the stored frame origin is the ORIGINAL
first vertex `[0,0,1]`, not the first vertex `[1,0,1]` of the reversed
order as the claim states. -/
theorem c1_counterexample :
    (¬ specClaimOpposite cx1V cx1H) ∧
      advanced_face_0 cx1V cx1H =
        .ok ⟨[[1, 1, 0], [1, 0, 0], [0, 0, 0]], [0, 0, 0], [0, 1, 0], [0, -1, 0]⟩ ∧
      ([[1, 1, 0], [1, 0, 0], [0, 0, 0]] : List RVec) ≠ cx1V ∧
      specClaimOpposite cx2V cx2H ∧
      advanced_face_0 cx2V cx2H =
        .ok ⟨[[1, 0, 1], [1, 1, 1], [0, 1, 1], [0, 0, 1]], [0, 0, 1], [0, 0, 1], [0, 1, 0]⟩ ∧
      (([0, 0, 1] : RVec) ≠ [1, 0, 1]) := by
  refine ⟨?_, ?_, ?_, ?_, ?_, ?_⟩
  · rintro ⟨nz, c, cn, h1, h2, h3, h4⟩
    have hnz : nz = [0, 1, 0] := by
      rw [show normalize cx1H = .ok [0, 1, 0] by
        norm_num [normalize, cx1H]] at h1
      simpa using h1.symm
    have hc : c = [0, 0, 1] := by
      rw [show specClaimNormal cx1V = .ok [0, 0, 1] by
        norm_num [specClaimNormal, cx1V, pyget, vsub, cross_product]] at h2
      simpa using h2.symm
    subst hnz hc
    rw [show normalize [0, 0, 1] = .ok [0, 0, 1] by norm_num [normalize]] at h3
    have hcn : cn = [0, 0, 1] := by simpa using h3.symm
    subst hcn
    simp [vadd] at h4
  · exact af0_cx1_eval
  · norm_num [cx1V]
  · refine ⟨[0, 0, 1], [0, 0, -1], [0, 0, -1], ?_, ?_, ?_, ?_⟩
    · norm_num [normalize, cx2H]
    · norm_num [specClaimNormal, cx2V, pyget, vsub, cross_product]
    · norm_num [normalize]
    · norm_num [vadd]
  · exact af0_cx2_eval
  · norm_num

/-- Claim C1 (amended): `advanced_face_0` computes the face normal as
`cross(v3 − v2, v3 − v1)` over the first three vertices (the NEGATIVE of
the claimed `cross(v2 − v1, v3 − v1)`); the loop's vertex order and the
frame's in-plane reference direction are KEPT exactly when this normal's
normalized sum with the normalized hint is exactly (no tolerance) the zero
vector, and are reversed in every other case; the stored frame's origin is
always the ORIGINAL first vertex, and the in-plane reference direction is
taken from the first two vertices of the order actually used. -/
theorem c1_amended (vertices : List RVec) (zaxis : RVec) (fd : FaceData)
    (h : advanced_face_0 vertices zaxis = .ok fd) :
    pyget vertices 0 = .ok fd.origin ∧
      normalize zaxis = .ok fd.axisDir ∧
      (codeOpposite vertices zaxis → fd.loopVerts = vertices) ∧
      (¬ codeOpposite vertices zaxis → fd.loopVerts = vertices.reverse) ∧
      (∃ l0 l1, pyget fd.loopVerts 0 = .ok l0 ∧ pyget fd.loopVerts 1 = .ok l1 ∧
        normalize (vsub l1 l0) = .ok fd.refDir) := by
  unfold advanced_face_0 at h
  cases hnz : normalize zaxis with
  | error e => rw [hnz] at h; simp at h
  | ok nz =>
    rw [hnz] at h
    simp only [ok_bind] at h
    cases hv2 : pyget vertices 2 with
    | error e => rw [hv2] at h; simp at h
    | ok v2 =>
      rw [hv2] at h
      simp only [ok_bind] at h
      cases hv1 : pyget vertices 1 with
      | error e => rw [hv1] at h; simp at h
      | ok v1 =>
        rw [hv1] at h
        simp only [ok_bind] at h
        cases hv0 : pyget vertices 0 with
        | error e => rw [hv0] at h; simp at h
        | ok v0 =>
          rw [hv0] at h
          simp only [ok_bind] at h
          cases hc : cross_product (vsub v2 v1) (vsub v2 v0) with
          | error e => rw [hc] at h; simp at h
          | ok c =>
            rw [hc] at h
            simp only [ok_bind] at h
            cases hcn : normalize c with
            | error e => rw [hcn] at h; simp at h
            | ok cn =>
              rw [hcn] at h
              simp only [ok_bind] at h
              have hcodeN : codeNormal vertices = .ok c := by
                unfold codeNormal
                rw [hv2]
                simp only [ok_bind]
                rw [hv1]
                simp only [ok_bind]
                rw [hv0]
                simp only [ok_bind]
                exact hc
              by_cases hcond : vadd nz cn = [0, 0, 0]
              · rw [if_pos hcond] at h
                cases hrd : normalize (vsub v1 v0) with
                | error e => rw [hrd] at h; simp at h
                | ok rd =>
                  rw [hrd] at h
                  simp only [ok_bind, pure_eq_ok, Except.ok.injEq] at h
                  subst h
                  exact ⟨rfl, rfl, fun _ => rfl,
                    fun hno => absurd ⟨nz, c, cn, hnz, hcodeN, hcn, hcond⟩ hno,
                    v0, v1, hv0, hv1, hrd⟩
              · rw [if_neg hcond] at h
                cases hr0 : pyget vertices.reverse 0 with
                | error e => rw [hr0] at h; simp at h
                | ok r0 =>
                  rw [hr0] at h
                  simp only [ok_bind] at h
                  cases hr1 : pyget vertices.reverse 1 with
                  | error e => rw [hr1] at h; simp at h
                  | ok r1 =>
                    rw [hr1] at h
                    simp only [ok_bind] at h
                    cases hrd : normalize (vsub r1 r0) with
                    | error e => rw [hrd] at h; simp at h
                    | ok rd =>
                      rw [hrd] at h
                      simp only [ok_bind, pure_eq_ok, Except.ok.injEq] at h
                      subst h
                      have hnotop : ¬ codeOpposite vertices zaxis := by
                        rintro ⟨nz', c', cn', h1, h2, h3, h4⟩
                        rw [hnz] at h1
                        obtain rfl : nz' = nz := by simpa using h1.symm
                        rw [hcodeN] at h2
                        obtain rfl : c' = c := by simpa using h2.symm
                        rw [hcn] at h3
                        obtain rfl : cn' = cn := by simpa using h3.symm
                        exact hcond h4
                      exact ⟨rfl, rfl, fun hop => absurd hop hnotop, fun _ => rfl,
                        r0, r1, hr0, hr1, hrd⟩

/-- Witness for `c1_amended` at the lifted clockwise square. -/
theorem c1_amended_witness :
    normalize cx2H = .ok (FaceData.axisDir
      ⟨[[1, 0, 1], [1, 1, 1], [0, 1, 1], [0, 0, 1]], [0, 0, 1], [0, 0, 1], [0, 1, 0]⟩) :=
  (c1_amended cx2V cx2H _ af0_cx2_eval).2.1

/-! ### Claim C7 -/

/-- Claim C7: extruding a polygon of `N` vertices over `[z_neg, z_pos]`
produces exactly `N + 2` faces — first the top face at `z_pos` with target
normal `[0,0,1]`, then the bottom face at `z_neg` with target normal
`[0,0,-1]`, then one lateral face per consecutive vertex pair — and
`af_list_2_part` wraps the face list in exactly one closed shell and one
manifold solid (incrementing the part-naming counter). -/
theorem c7_face_count (vertexList : List RVec) (zneg zpos : ℝ)
    (faces : List FaceData) (k : Nat)
    (h : af2d3d vertexList [zneg, zpos] = .ok faces) :
    faces.length = vertexList.length + 2 ∧
      (∃ top bot lats, faces = top :: bot :: lats ∧
        xyface vertexList zpos [0, 0, 1] = .ok top ∧
        xyface vertexList zneg [0, 0, -1] = .ok bot ∧
        exMap (fun p => zface p.1 p.2 [zneg, zpos])
          (vertexList.zip (rotate vertexList (-1))) = .ok lats ∧
        lats.length = vertexList.length) ∧
      af_list_2_part faces k = (⟨k, ⟨faces⟩⟩, k + 1) := by
  unfold af2d3d at h
  rw [show pyget [zneg, zpos] 0 = Except.ok zneg from rfl,
    show pyget [zneg, zpos] 1 = Except.ok zpos from rfl] at h
  simp only [ok_bind] at h
  cases htop : xyface vertexList zpos [0, 0, 1] with
  | error e => rw [htop] at h; simp at h
  | ok top =>
    rw [htop] at h
    simp only [ok_bind] at h
    cases hbot : xyface vertexList zneg [0, 0, -1] with
    | error e => rw [hbot] at h; simp at h
    | ok bot =>
      rw [hbot] at h
      simp only [ok_bind] at h
      cases hlats : exMap (fun p => zface p.1 p.2 [zneg, zpos])
          (vertexList.zip (rotate vertexList (-1))) with
      | error e => rw [hlats] at h; simp at h
      | ok lats =>
        rw [hlats] at h
        simp only [ok_bind, pure_eq_ok, Except.ok.injEq] at h
        subst h
        have hl : lats.length = vertexList.length := by
          have := exMap_ok_length _ _ _ hlats
          rwa [List.length_zip, rotate_length, min_self] at this
        refine ⟨by simp [hl], ⟨top, bot, lats, rfl, rfl, rfl, rfl, hl⟩, rfl⟩

/-- The clockwise unit square, as `af2d3d` receives it. -/
def sqR : List RVec := [[0, 0, 0], [0, 1, 0], [1, 1, 0], [1, 0, 0]]

/-- The top face of the extruded square. -/
noncomputable def sqTopFD : FaceData :=
  ⟨[[1, 0, 1], [1, 1, 1], [0, 1, 1], [0, 0, 1]], [0, 0, 1], [0, 0, 1], [0, 1, 0]⟩

/-- The bottom face of the extruded square. -/
noncomputable def sqBotFD : FaceData :=
  ⟨[[0, 0, 0], [0, 1, 0], [1, 1, 0], [1, 0, 0]], [0, 0, 0], [0, 0, -1], [0, 1, 0]⟩

/-- The first lateral face of the extruded square. -/
noncomputable def sqLat1FD : FaceData :=
  ⟨[[0, 0, 1], [0, 1, 1], [0, 1, 0], [0, 0, 0]], [0, 0, 0], [-1, 0, 0], [0, 1, 0]⟩

/-- The second lateral face of the extruded square. -/
noncomputable def sqLat2FD : FaceData :=
  ⟨[[0, 1, 1], [1, 1, 1], [1, 1, 0], [0, 1, 0]], [0, 1, 0], [0, 1, 0], [1, 0, 0]⟩

/-- The third lateral face of the extruded square. -/
noncomputable def sqLat3FD : FaceData :=
  ⟨[[1, 1, 1], [1, 0, 1], [1, 0, 0], [1, 1, 0]], [1, 1, 0], [1, 0, 0], [0, -1, 0]⟩

/-- The fourth lateral face of the extruded square. -/
noncomputable def sqLat4FD : FaceData :=
  ⟨[[1, 0, 1], [0, 0, 1], [0, 0, 0], [1, 0, 0]], [1, 0, 0], [0, -1, 0], [-1, 0, 0]⟩

set_option maxHeartbeats 1600000 in
/-- Evaluation of the square's top face. -/
theorem sq_top_eval : xyface sqR 1 [0, 0, 1] = .ok sqTopFD := by
  norm_num [xyface, advanced_face_0, normalize, cross_product, pyget, vadd, vsub,
    sqR, sqTopFD, FaceData.mk.injEq]

set_option maxHeartbeats 1600000 in
/-- Evaluation of the square's bottom face. -/
theorem sq_bot_eval : xyface sqR 0 [0, 0, -1] = .ok sqBotFD := by
  norm_num [xyface, advanced_face_0, normalize, cross_product, pyget, vadd, vsub,
    sqR, sqBotFD, FaceData.mk.injEq]

set_option maxHeartbeats 1600000 in
/-- Evaluation of the square's first lateral face. -/
theorem sq_lat1_eval : zface [0, 0, 0] [0, 1, 0] [0, 1] = .ok sqLat1FD := by
  norm_num [zface, advanced_face_0, normalize, cross_product, pyget, vadd, vsub,
    sqLat1FD, FaceData.mk.injEq]

set_option maxHeartbeats 1600000 in
/-- Evaluation of the square's second lateral face. -/
theorem sq_lat2_eval : zface [0, 1, 0] [1, 1, 0] [0, 1] = .ok sqLat2FD := by
  norm_num [zface, advanced_face_0, normalize, cross_product, pyget, vadd, vsub,
    sqLat2FD, FaceData.mk.injEq]

set_option maxHeartbeats 1600000 in
/-- Evaluation of the square's third lateral face. -/
theorem sq_lat3_eval : zface [1, 1, 0] [1, 0, 0] [0, 1] = .ok sqLat3FD := by
  norm_num [zface, advanced_face_0, normalize, cross_product, pyget, vadd, vsub,
    sqLat3FD, FaceData.mk.injEq]

set_option maxHeartbeats 1600000 in
/-- Evaluation of the square's fourth lateral face. -/
theorem sq_lat4_eval : zface [1, 0, 0] [0, 0, 0] [0, 1] = .ok sqLat4FD := by
  norm_num [zface, advanced_face_0, normalize, cross_product, pyget, vadd, vsub,
    sqLat4FD, FaceData.mk.injEq]

/-- Full evaluation of `af2d3d` on the square. -/
theorem af2d3d_sq_eval : af2d3d sqR [0, 1] =
    .ok [sqTopFD, sqBotFD, sqLat1FD, sqLat2FD, sqLat3FD, sqLat4FD] := by
  unfold af2d3d
  rw [show pyget [(0 : ℝ), 1] 0 = Except.ok 0 from rfl,
    show pyget [(0 : ℝ), 1] 1 = Except.ok 1 from rfl]
  simp only [ok_bind]
  rw [sq_top_eval]
  simp only [ok_bind]
  rw [sq_bot_eval]
  simp only [ok_bind]
  rw [show sqR.zip (rotate sqR (-1)) =
    [([0, 0, 0], [0, 1, 0]), ([0, 1, 0], [1, 1, 0]),
      ([1, 1, 0], [1, 0, 0]), ([1, 0, 0], [0, 0, 0])] from rfl]
  simp only [exMap]
  rw [sq_lat1_eval]
  simp only [ok_bind]
  rw [sq_lat2_eval]
  simp only [ok_bind]
  rw [sq_lat3_eval]
  simp only [ok_bind]
  rw [sq_lat4_eval]
  simp only [ok_bind, pure_eq_ok]

/-- Witness for `c7_face_count`: the extruded unit square has 4 + 2 faces. -/
theorem c7_witness :
    ([sqTopFD, sqBotFD, sqLat1FD, sqLat2FD, sqLat3FD, sqLat4FD] : List FaceData).length =
      sqR.length + 2 :=
  (c7_face_count sqR 0 1 _ 1 af2d3d_sq_eval).1

end StepFG
